import Mathlib

/-!
Shallow embedding of the wreckit item-lifecycle engine: the state machine and
validator, the agent adapter, the VCS adapter, the five phase runners and the
diagnostics repair, with the claims about them proved below the definitions.

Sources embedded:
- src/src/domain/validation.ts (allStoriesDone, hasPendingStories, canEnter*, validateTransition)
- the states module (WORKFLOW_STATES, getStateIndex, getNextState, getAllowedNextStates)
- src/dist/index.js: runAgent (close-handler semantics), the git/gh adapter
  (runCommand, ensureBranch, hasUncommittedChanges, commitAll, pushBranch,
  getPrByBranch, createOrUpdatePr, isPrMerged), the five phase runners
  (runPhaseResearch, runPhasePlan, runPhaseImplement, runPhasePr,
  runPhaseComplete) and the doctor repair logic of applyFixes.

Modelling conventions: JS strings are Lean Strings (the stream scanner of the
agent adapter is modelled on List Char); nullable fields are Option; the item
record's schema_version and created_at/updated_at timestamps are elided (no
claim mentions them); the external agent subprocess is an oracle function on
the item's artifact files; git/gh subprocesses are an oracle state plus an
event trace.  The JS field name `section` is a Lean keyword and is rendered
`sect`.
-/

/-- The workflow state enum of src/schemas (z.enum([...])). -/
inductive WorkflowState
  | raw
  | researched
  | planned
  | implementing
  | in_pr
  | done
deriving DecidableEq, Repr

open WorkflowState

/-- WORKFLOW_STATES from the states module: the strictly ordered state list. -/
def WORKFLOW_STATES : List WorkflowState :=
  [raw, researched, planned, implementing, in_pr, done]

/-- getStateIndex: WORKFLOW_STATES.indexOf(state).  Every enum value occurs in
the list, so the JS -1 branch is unreachable and the index is a Nat. -/
def getStateIndex (state : WorkflowState) : Nat :=
  WORKFLOW_STATES.indexOf state

/-- getNextState: null when at/after the last state, else the next entry. -/
def getNextState (current : WorkflowState) : Option WorkflowState :=
  let index := getStateIndex current
  if index ≥ WORKFLOW_STATES.length - 1 then none
  else WORKFLOW_STATES[index + 1]?

/-- getAllowedNextStates: singleton of the next state, or empty at the end. -/
def getAllowedNextStates (current : WorkflowState) : List WorkflowState :=
  match getNextState current with
  | some next => [next]
  | none => []

/-- String rendering of a state, as used in interpolated messages. -/
def stateName : WorkflowState → String
  | .raw => "raw"
  | .researched => "researched"
  | .planned => "planned"
  | .implementing => "implementing"
  | .in_pr => "in_pr"
  | .done => "done"

/-- Story status enum (z.enum(["pending", "done"])). -/
inductive StoryStatus
  | pending
  | done
deriving DecidableEq, Repr

/-- StorySchema of src/schemas. -/
structure Story where
  id : String
  title : String
  acceptance_criteria : List String
  priority : Int
  status : StoryStatus
  notes : String
deriving DecidableEq, Repr

/-- PrdSchema of src/schemas (the structured story document). -/
structure Prd where
  schema_version : Int
  id : String
  branch_name : String
  user_stories : List Story
deriving DecidableEq, Repr

/-- ValidationContext of src/src/domain/validation.ts. -/
structure ValidationContext where
  hasResearchMd : Bool
  hasPlanMd : Bool
  prd : Option Prd
  hasPr : Bool
  prMerged : Bool
deriving DecidableEq, Repr

/-- ValidationResult of src/src/domain/validation.ts. -/
structure ValidationResult where
  valid : Bool
  reason : Option String
deriving DecidableEq, Repr

/-- allStoriesDone: false on a missing document or an empty story list, else
every story has status done. -/
def allStoriesDone : Option Prd → Bool
  | none => false
  | some prd =>
      if prd.user_stories.length == 0 then false
      else prd.user_stories.all (fun story => story.status == StoryStatus.done)

/-- hasPendingStories: false on a missing document, else some story pending. -/
def hasPendingStories : Option Prd → Bool
  | none => false
  | some prd => prd.user_stories.any (fun story => story.status == StoryStatus.pending)

/-- canEnterResearched: requires the research artifact. -/
def canEnterResearched (ctx : ValidationContext) : ValidationResult :=
  if !ctx.hasResearchMd then
    { valid := false, reason := some "research.md does not exist" }
  else { valid := true, reason := none }

/-- canEnterPlanned: requires plan.md and a valid story document. -/
def canEnterPlanned (ctx : ValidationContext) : ValidationResult :=
  if !ctx.hasPlanMd then
    { valid := false, reason := some "plan.md does not exist" }
  else
    match ctx.prd with
    | none => { valid := false, reason := some "prd.json is not valid" }
    | some _ => { valid := true, reason := none }

/-- canEnterImplementing: requires at least one pending story. -/
def canEnterImplementing (ctx : ValidationContext) : ValidationResult :=
  if !hasPendingStories ctx.prd then
    { valid := false, reason := some "prd.json has no stories with status pending" }
  else { valid := true, reason := none }

/-- canEnterInPr: requires all stories done and a recorded PR. -/
def canEnterInPr (ctx : ValidationContext) : ValidationResult :=
  if !allStoriesDone ctx.prd then
    { valid := false, reason := some "not all stories are done" }
  else if !ctx.hasPr then
    { valid := false, reason := some "PR not created" }
  else { valid := true, reason := none }

/-- canEnterDone: requires the PR to be merged. -/
def canEnterDone (ctx : ValidationContext) : ValidationResult :=
  if !ctx.prMerged then
    { valid := false, reason := some "PR not merged" }
  else { valid := true, reason := none }

/-- validateTransition: reject a target that is not the single allowed next
state, then dispatch on the target's guard.  The default switch case (target
raw) is kept for faithfulness. -/
def validateTransition (current target : WorkflowState) (ctx : ValidationContext) :
    ValidationResult :=
  let allowed := getAllowedNextStates current
  if !allowed.contains target then
    { valid := false
      reason := some ("cannot transition from " ++ stateName current ++ " to " ++ stateName target) }
  else
    match target with
    | .researched => canEnterResearched ctx
    | .planned => canEnterPlanned ctx
    | .implementing => canEnterImplementing ctx
    | .in_pr => canEnterInPr ctx
    | .done => canEnterDone ctx
    | .raw => { valid := false, reason := some ("unknown target state: " ++ stateName .raw) }

/-- Result shape of runAgent: {success, output, timedOut, exitCode,
completionDetected}.  The streamed output is modelled as a char list. -/
structure AgentResult where
  success : Bool
  output : String
  timedOut : Bool
  exitCode : Option Int
  completionDetected : Bool
deriving DecidableEq, Repr

/-- JS String.prototype.includes on char lists: the pattern occurs as a
contiguous substring of the haystack. -/
def jsIncludes (hay pat : List Char) : Bool :=
  decide (pat <:+: hay)

/-- The data-event scanner of runAgent: each stdout/stderr chunk is appended
to the shared output and the completion signal is looked for in the whole
output accumulated so far.  Returns (final output, completionDetected). -/
def streamScan (signal : List Char) (chunks : List (List Char)) :
    List Char × Bool :=
  chunks.foldl
    (fun st chunk =>
      let output := st.1 ++ chunk
      (output, st.2 || jsIncludes output signal))
    ([], false)

/-- The close-handler of runAgent: success := code === 0 && completionDetected,
for an observed run with the given streamed chunks and exit code. -/
def runAgentClose (signal : List Char) (chunks : List (List Char))
    (exitCode : Option Int) (timedOut : Bool) : AgentResult :=
  let scanned := streamScan signal chunks
  { success := (exitCode == some 0) && scanned.2
    output := String.mk scanned.1
    timedOut := timedOut
    exitCode := exitCode
    completionDetected := scanned.2 }

/-- ItemSchema of src/schemas; schema_version and the two ISO timestamps are
elided (no claim concerns them).  The JS field `section` is rendered `sect`. -/
structure Item where
  id : String
  title : String
  sect : String
  state : WorkflowState
  overview : String
  branch : Option String
  pr_url : Option String
  pr_number : Option Int
  last_error : Option String
deriving DecidableEq, Repr

/-- The on-disk artifacts of one item's folder: research.md, plan.md,
prd.json (absent / present-but-invalid / valid) and the progress log
(modelled by its entry count). -/
structure Artifacts where
  hasResearchMd : Bool
  hasPlanMd : Bool
  prdFile : Option (Option Prd)
  progressCount : Nat
deriving DecidableEq, Repr

/-- The persistent per-item world: the item.json record plus artifacts. -/
structure ItemFs where
  item : Item
  art : Artifacts
deriving DecidableEq, Repr

/-- loadPrdSafe: readPrd, with any read/parse/schema error collapsed to null. -/
def loadPrdSafe (a : Artifacts) : Option Prd :=
  match a.prdFile with
  | some (some prd) => some prd
  | _ => none

/-- fileExists on prd.json (present even when invalid). -/
def hasPrdFile (a : Artifacts) : Bool :=
  a.prdFile.isSome

/-- saveItem: writeItem of the record (updated_at refresh elided). -/
def saveItem (fs : ItemFs) (item : Item) : ItemFs :=
  { fs with item := item }

/-- buildValidationContext: artifact flags from disk, hasPr from the item's
pr_url, prMerged true only when state is already done. -/
def buildValidationContext (a : Artifacts) (item : Item) : ValidationContext :=
  { hasResearchMd := a.hasResearchMd
    hasPlanMd := a.hasPlanMd
    prd := loadPrdSafe a
    hasPr := item.pr_url.isSome
    prMerged := item.state == .done }

/-- Result shape of every phase runner: {success, item, error?}. -/
structure RunnerResult where
  success : Bool
  item : Item
  error : Option String
deriving DecidableEq, Repr

/-- The external agent as an oracle: one subprocess run, observed through its
AgentResult and its effect on the item's artifact files.  The item record is
owned by the Item Store (spec section 3) and is not touched by the agent. -/
def AgentBehavior : Type :=
  Artifacts → AgentResult × Artifacts

/-- The synthetic result runAgent returns in dry-run mode (no spawn). -/
def dryRunAgentResult : AgentResult :=
  { success := true
    output := "[dry-run] No output"
    timedOut := false
    exitCode := some 0
    completionDetected := true }

/-- runAgent as invoked by the runners: dry-run short-circuits before any
spawn, otherwise the oracle supplies the observed run. -/
def runAgentM (agent : AgentBehavior) (dryRun : Bool) (a : Artifacts) :
    AgentResult × Artifacts :=
  if dryRun then (dryRunAgentResult, a) else agent a

/-- `${result.exitCode}` interpolation (null prints as "null"). -/
def exitCodeStr : Option Int → String
  | none => "null"
  | some n => toString n

/-- The error message for a failed (non-timed-out) or timed-out agent run. -/
def agentFailError (result : AgentResult) : String :=
  if result.timedOut then "Agent timed out"
  else "Agent failed with exit code " ++ exitCodeStr result.exitCode

/-- runPhaseResearch: skip-and-normalize when research.md already exists and
not forced; otherwise require state raw unless forced (force resets the
in-memory state to raw); run the agent; in dry-run return success immediately;
verify the artifact, re-validate the guard, persist state researched with
last_error cleared. -/
def runPhaseResearch (agent : AgentBehavior) (force dryRun : Bool) (fs : ItemFs) :
    RunnerResult × ItemFs :=
  let item := fs.item
  if !force && fs.art.hasResearchMd then
    if item.state == .raw then
      let item := { item with state := .researched }
      ({ success := true, item := item, error := none }, saveItem fs item)
    else
      ({ success := true, item := item, error := none }, fs)
  else if item.state != .raw && !force then
    ({ success := false, item := item
       error := some ("Item is in state " ++ stateName item.state ++
         ", expected \x27raw\x27 for research phase") }, fs)
  else
    let item := if force && item.state != .raw then { item with state := .raw } else item
    let ran := runAgentM agent dryRun fs.art
    let result := ran.1
    let fs := { fs with art := ran.2 }
    if dryRun then
      ({ success := true, item := item, error := none }, fs)
    else if !result.success then
      let err := agentFailError result
      let item := { item with last_error := some err }
      ({ success := false, item := item, error := some err }, saveItem fs item)
    else if !fs.art.hasResearchMd then
      let err := "Agent did not create research.md"
      let item := { item with last_error := some err }
      ({ success := false, item := item, error := some err }, saveItem fs item)
    else
      let ctx := buildValidationContext fs.art item
      let validation := validateTransition item.state .researched ctx
      if !validation.valid then
        let err := validation.reason.getD "Validation failed"
        let item := { item with last_error := some err }
        ({ success := false, item := item, error := some err }, saveItem fs item)
      else
        let item := { item with state := .researched, last_error := none }
        ({ success := true, item := item, error := none }, saveItem fs item)

/-- runPhasePlan: skip-and-normalize when plan.md and prd.json both exist and
not forced (normalizing researched -> planned only when the prd is valid);
otherwise require state researched unless forced; run the agent; in dry-run
return success; verify plan.md, prd.json and its validity; re-validate the
guard; persist state planned with last_error cleared. -/
def runPhasePlan (agent : AgentBehavior) (force dryRun : Bool) (fs : ItemFs) :
    RunnerResult × ItemFs :=
  let item := fs.item
  if !force && fs.art.hasPlanMd && hasPrdFile fs.art then
    if item.state == .researched then
      match loadPrdSafe fs.art with
      | some _ =>
          let item := { item with state := .planned }
          ({ success := true, item := item, error := none }, saveItem fs item)
      | none => ({ success := true, item := item, error := none }, fs)
    else
      ({ success := true, item := item, error := none }, fs)
  else if item.state != .researched && !force then
    ({ success := false, item := item
       error := some ("Item is in state " ++ stateName item.state ++
         ", expected \x27researched\x27 for plan phase") }, fs)
  else
    let ran := runAgentM agent dryRun fs.art
    let result := ran.1
    let fs := { fs with art := ran.2 }
    if dryRun then
      ({ success := true, item := item, error := none }, fs)
    else if !result.success then
      let err := agentFailError result
      let item := { item with last_error := some err }
      ({ success := false, item := item, error := some err }, saveItem fs item)
    else if !fs.art.hasPlanMd then
      let err := "Agent did not create plan.md"
      let item := { item with last_error := some err }
      ({ success := false, item := item, error := some err }, saveItem fs item)
    else if !hasPrdFile fs.art then
      let err := "Agent did not create prd.json"
      let item := { item with last_error := some err }
      ({ success := false, item := item, error := some err }, saveItem fs item)
    else
      match loadPrdSafe fs.art with
      | none =>
          let err := "prd.json is not valid JSON or fails schema validation"
          let item := { item with last_error := some err }
          ({ success := false, item := item, error := some err }, saveItem fs item)
      | some _ =>
          let ctx := buildValidationContext fs.art item
          let validation := validateTransition item.state .planned ctx
          if !validation.valid then
            let err := validation.reason.getD "Validation failed"
            let item := { item with last_error := some err }
            ({ success := false, item := item, error := some err }, saveItem fs item)
          else
            let item := { item with state := .planned, last_error := none }
            ({ success := true, item := item, error := none }, saveItem fs item)

/-- Stable insertion of a story into a priority-sorted list (earlier document
order wins ties), modelling Array.prototype.sort's stable sort with comparator
(a, b) => a.priority - b.priority. -/
def insertByPriority (story : Story) : List Story → List Story
  | [] => [story]
  | t :: ts =>
      if t.priority ≤ story.priority then t :: insertByPriority story ts
      else story :: t :: ts

/-- Stable sort by ascending priority: elements are inserted in document
order, and insertByPriority places a new element after existing entries of
equal priority, so document order is preserved on ties, as with the stable
JS Array.prototype.sort. -/
def sortByPriority (stories : List Story) : List Story :=
  stories.foldl (fun sorted story => insertByPriority story sorted) []

/-- Outcome of the implement runner's while-loop.  dryExit: the in-loop
dry-run early return; failed: the agent failed or prd.json became invalid
(error to be recorded and saved by the caller); exited: the while condition
became false (no pending story or iteration budget exhausted), carrying the
last loaded prd and the iteration count. -/
inductive ImplLoopRes
  | dryExit (fs : ItemFs) (iteration : Nat)
  | failed (fs : ItemFs) (error : String) (iteration : Nat)
  | exited (prd : Prd) (fs : ItemFs) (iteration : Nat)
deriving Repr

/-- The while-loop of runPhaseImplement.  fuel = maxIterations - iteration, so
fuel > 0 encodes the iteration < maxIterations conjunct of the loop condition;
each body entry increments the iteration, runs the agent once, reloads the prd
and appends a progress-log entry. -/
def implementLoop (agent : AgentBehavior) (dryRun : Bool) :
    Nat → Nat → Prd → ItemFs → ImplLoopRes
  | 0, iteration, prd, fs => .exited prd fs iteration
  | fuel + 1, iteration, prd, fs =>
      if hasPendingStories (some prd) then
        let iteration := iteration + 1
        let pendingStories :=
          sortByPriority (prd.user_stories.filter (fun s => s.status == StoryStatus.pending))
        match pendingStories with
        | [] => .exited prd fs iteration
        | _currentStory :: _ =>
            let ran := runAgentM agent dryRun fs.art
            let result := ran.1
            let fs := { fs with art := ran.2 }
            if dryRun then .dryExit fs iteration
            else if !result.success then .failed fs (agentFailError result) iteration
            else
              match loadPrdSafe fs.art with
              | none => .failed fs "prd.json became invalid during implementation" iteration
              | some prd =>
                  let fs :=
                    { fs with art := { fs.art with progressCount := fs.art.progressCount + 1 } }
                  implementLoop agent dryRun fuel iteration prd fs
      else .exited prd fs iteration

/-- runPhaseImplement: gated on planned/implementing unless forced; fails on a
missing or invalid prd; short-circuits success when all stories are already
done; on first entry from planned persists state implementing; loops up to
max_iterations; on normal exit with stories still pending fails with the
max-iterations error, else re-reads the item and persists last_error null.
The third component is the final value of the iteration counter. -/
def runPhaseImplement (agent : AgentBehavior) (maxIterations : Nat)
    (force dryRun : Bool) (fs : ItemFs) : RunnerResult × ItemFs × Nat :=
  let item := fs.item
  if item.state != .planned && item.state != .implementing && !force then
    ({ success := false, item := item
       error := some ("Item is in state " ++ stateName item.state ++
         ", expected \x27planned\x27 or \x27implementing\x27 for implement phase") }, fs, 0)
  else
    match loadPrdSafe fs.art with
    | none =>
        let err := "prd.json not found or invalid"
        let item := { item with last_error := some err }
        ({ success := false, item := item, error := some err }, saveItem fs item, 0)
    | some prd =>
        if allStoriesDone (some prd) then
          ({ success := true, item := item, error := none }, fs, 0)
        else
          let step :=
            if item.state == .planned then
              let item := { item with state := .implementing }
              (item, saveItem fs item)
            else (item, fs)
          let item := step.1
          let fs := step.2
          match implementLoop agent dryRun maxIterations 0 prd fs with
          | .dryExit fs iteration =>
              ({ success := true, item := item, error := none }, fs, iteration)
          | .failed fs err iteration =>
              let item := { item with last_error := some err }
              ({ success := false, item := item, error := some err }, saveItem fs item, iteration)
          | .exited prd fs iteration =>
              if iteration ≥ maxIterations && hasPendingStories (some prd) then
                let err := "Reached max iterations (" ++ toString maxIterations ++
                  ") with stories still pending"
                let item := { item with last_error := some err }
                ({ success := false, item := item, error := some err }, saveItem fs item, iteration)
              else
                let item := { fs.item with last_error := none }
                ({ success := true, item := item, error := none }, saveItem fs item, iteration)

/-- One issued git/gh subprocess, recorded in order of execution. -/
inductive VcsEvent
  | checkout (branch : String)
  | checkoutNew (branch : String)
  | statusCheck
  | commitAll (message : String)
  | push (branch : String)
  | prView (branch : String)
  | prEdit (number : Int)
  | prCreate (base head : String)
  | prStatus (number : Int)
deriving DecidableEq, Repr

/-- PR info as parsed from gh pr view --json url,number. -/
structure PrInfo where
  url : String
  number : Int
deriving DecidableEq, Repr

/-- The observable git/gh world: local branches, the dirty flag reported by
git status --porcelain, open PRs per head branch, the outcome the next
gh pr create would have (exit code, trimmed stdout, and the PR it would
open), whether the post-create gh pr view would fail to retrieve the new PR
(a first view that fails is already covered by quantifying over the open-PR
table, since its result only matters as present/absent), merged PR numbers,
and the trace of issued commands. -/
structure GitState where
  localBranches : List String
  currentBranch : String
  dirty : Bool
  prs : List (String × PrInfo)
  createPrExit : Int
  createPrStdout : String
  createRetrieveFails : Bool
  nextPrUrl : String
  nextPrNumber : Int
  mergedPrs : List Int
  events : List VcsEvent
deriving DecidableEq, Repr

/-- Replace the first '/' of a char list by '-'. -/
def replaceFirstSlashAux : List Char → List Char
  | [] => []
  | c :: cs => if c = '/' then '-' :: cs else c :: replaceFirstSlashAux cs

/-- JS String.prototype.replace with a string pattern replaces only the first
occurrence: item.id.replace("/", "-"). -/
def replaceFirstSlash (s : String) : String :=
  String.mk (replaceFirstSlashAux s.toList)

/-- ensureBranch: in dry-run report created without touching git; reuse and
switch to an existing local branch; else branch from the base branch. -/
def ensureBranch (baseBranch branchPfx itemSlug : String) (dryRun : Bool)
    (g : GitState) : (String × Bool) × GitState :=
  let branchName := branchPfx ++ itemSlug
  if dryRun then ((branchName, true), g)
  else if g.localBranches.contains branchName then
    ((branchName, false),
      { g with currentBranch := branchName
               events := g.events ++ [.checkout branchName] })
  else
    ((branchName, true),
      { g with localBranches := g.localBranches ++ [branchName]
               currentBranch := branchName
               events := g.events ++ [.checkout baseBranch, .checkoutNew branchName] })

/-- hasUncommittedChanges: git status --porcelain has nonempty stdout.  In
dry-run the underlying runCommand returns empty stdout, hence false. -/
def hasUncommittedChanges (dryRun : Bool) (g : GitState) : Bool × GitState :=
  if dryRun then (false, g)
  else (g.dirty, { g with events := g.events ++ [.statusCheck] })

/-- commitAll: git add -A && git commit -m message (no-op in dry-run). -/
def commitAll (message : String) (dryRun : Bool) (g : GitState) : GitState :=
  if dryRun then g
  else { g with dirty := false, events := g.events ++ [.commitAll message] }

/-- pushBranch: git push -u origin branch (no-op in dry-run). -/
def pushBranch (branchName : String) (dryRun : Bool) (g : GitState) : GitState :=
  if dryRun then g
  else { g with events := g.events ++ [.push branchName] }

/-- First entry for a head branch in the open-PR table. -/
def prLookup : List (String × PrInfo) → String → Option PrInfo
  | [], _ => none
  | (k, v) :: rest, b => if b == k then some v else prLookup rest b

/-- getPrByBranch: gh pr view branch --json url,number; non-zero exit or
unparsable stdout yields null, modelled as lookup in the open-PR table. -/
def getPrByBranch (branchName : String) (g : GitState) : Option PrInfo × GitState :=
  (prLookup g.prs branchName, { g with events := g.events ++ [.prView branchName] })

/-- createOrUpdatePr: dry-run returns a fake PR; an existing PR for the head
branch is edited in place and its url/number returned (created = false); else
gh pr create is issued — a non-zero exit THROWS "Failed to create PR", and a
successful create is re-read via getPrByBranch, whose own failure (non-zero
gh pr view exit or unparsable stdout, the createRetrieveFails oracle bit)
THROWS "PR was created but could not retrieve its info".  The thrown errors
are modelled by Except.error. -/
def createOrUpdatePr (baseBranch headBranch title body : String) (dryRun : Bool)
    (g : GitState) : Except String ((PrInfo × Bool) × GitState) :=
  if dryRun then
    Except.ok (({ url := "https://github.com/example/repo/pull/0", number := 0 }, true), g)
  else
    let viewed := getPrByBranch headBranch g
    match viewed with
    | (some existing, g) =>
        Except.ok ((existing, false), { g with events := g.events ++ [.prEdit existing.number] })
    | (none, g) =>
        let g := { g with events := g.events ++ [VcsEvent.prCreate baseBranch headBranch] }
        if g.createPrExit != (0 : Int) then
          Except.error ("Failed to create PR: " ++ g.createPrStdout)
        else
          let g := { g with
            prs := g.prs ++ [(headBranch, PrInfo.mk g.nextPrUrl g.nextPrNumber)] }
          let prRead := getPrByBranch headBranch g
          match (if g.createRetrieveFails then none else prRead.1), prRead.2 with
          | none, _ => Except.error "PR was created but could not retrieve its info"
          | some prInfo, g => Except.ok ((prInfo, true), g)

/-- isPrMerged: gh pr view number --json state, MERGED check; any non-zero
exit or parse failure yields false.  (In dry-run the underlying runCommand
returns empty stdout, which fails to parse, hence false.) -/
def isPrMerged (prNumber : Int) (dryRun : Bool) (g : GitState) : Bool × GitState :=
  if dryRun then (false, g)
  else (g.mergedPrs.contains prNumber, { g with events := g.events ++ [.prStatus prNumber] })

/-- The PR body template of runPhasePr. -/
def prBodyFor (item : Item) : String :=
  "## Overview\n\n" ++ item.overview ++ "\n\n---\n\n*Automated PR created by wreckitloop*"

/-- runPhasePr: gated on state implementing (no force path); requires all
stories done; ensures the working branch, commits iff the tree is dirty,
pushes, creates-or-updates the PR (which may throw), then persists state
in_pr with branch, pr_url, pr_number recorded and last_error cleared. -/
def runPhasePr (baseBranch branchPfx : String) (dryRun : Bool) (fs : ItemFs)
    (g : GitState) : Except String (RunnerResult × ItemFs × GitState) :=
  let item := fs.item
  if item.state != .implementing then
    .ok ({ success := false, item := item
           error := some ("Item is in state " ++ stateName item.state ++
             ", expected \x27implementing\x27 for PR phase") }, fs, g)
  else
    let prd := loadPrdSafe fs.art
    if !allStoriesDone prd then
      let err := "Not all stories are done"
      let item := { item with last_error := some err }
      .ok ({ success := false, item := item, error := some err }, saveItem fs item, g)
    else
      let itemSlug := replaceFirstSlash item.id
      let branched := ensureBranch baseBranch branchPfx itemSlug dryRun g
      let branchName := branched.1.1
      let g := branched.2
      let checked := hasUncommittedChanges dryRun g
      let g :=
        if checked.1 then
          commitAll ("feat(" ++ itemSlug ++ "): implement " ++ item.title) dryRun checked.2
        else checked.2
      let g := pushBranch branchName dryRun g
      let prTitle := "[" ++ item.sect ++ "] " ++ item.title
      match createOrUpdatePr baseBranch branchName prTitle (prBodyFor item) dryRun g with
      | .error e => .error e
      | .ok ((prResult, _created), g) =>
          let item := { item with
            state := .in_pr
            branch := some branchName
            pr_url := some prResult.url
            pr_number := some prResult.number
            last_error := none }
          .ok ({ success := true, item := item, error := none }, saveItem fs item, g)

/-- runPhaseComplete: gated on state in_pr; dry-run reports success without
querying; requires a recorded PR number; transitions to done only on a
confirmed-merged result, else a retryable "PR not merged yet" failure. -/
def runPhaseComplete (dryRun : Bool) (fs : ItemFs) (g : GitState) :
    RunnerResult × ItemFs × GitState :=
  let item := fs.item
  if item.state != .in_pr then
    ({ success := false, item := item
       error := some ("Item is in state " ++ stateName item.state ++
         ", expected \x27in_pr\x27 for complete phase") }, fs, g)
  else if dryRun then
    ({ success := true, item := item, error := none }, fs, g)
  else
    match item.pr_number with
    | none => ({ success := false, item := item, error := some "Item has no PR number" }, fs, g)
    | some prNumber =>
        let queried := isPrMerged prNumber dryRun g
        let g := queried.2
        if !queried.1 then
          ({ success := false, item := item, error := some "PR not merged yet" }, fs, g)
        else
          let item := { item with state := .done, last_error := none }
          ({ success := true, item := item, error := none }, saveItem fs item, g)

/-- The five phases, as dispatched by PHASE_CONFIG / runCommand's runner map. -/
inductive Phase
  | research
  | plan
  | implement
  | pr
  | complete
deriving DecidableEq, Repr

/-- The configuration and oracles a runner invocation closes over. -/
structure RunEnv where
  agent : AgentBehavior
  maxIterations : Nat
  baseBranch : String
  branchPfx : String

/-- One phase-runner invocation, dispatching to the runner functions; the
delivery runner may propagate a thrown error (Except.error). -/
def runPhase (p : Phase) (env : RunEnv) (force dryRun : Bool) (fs : ItemFs)
    (g : GitState) : Except String (RunnerResult × ItemFs × GitState) :=
  match p with
  | .research =>
      let r := runPhaseResearch env.agent force dryRun fs
      .ok (r.1, r.2, g)
  | .plan =>
      let r := runPhasePlan env.agent force dryRun fs
      .ok (r.1, r.2, g)
  | .implement =>
      let r := runPhaseImplement env.agent env.maxIterations force dryRun fs
      .ok (r.1, r.2.1, g)
  | .pr => runPhasePr env.baseBranch env.branchPfx dryRun fs g
  | .complete =>
      let r := runPhaseComplete dryRun fs g
      .ok r

/-- The STATE_FILE_MISMATCH repair of applyFixes: from the re-read item state
and the artifact files present on disk, compute the state the record is reset
to (equal to the input state when the repair cannot determine a correction,
in which case nothing is written). -/
def applyStateFileMismatchFix (state : WorkflowState)
    (hasResearch hasPlan hasPrd : Bool) : WorkflowState :=
  if state == .researched && !hasResearch then .raw
  else if state == .planned && (!hasPlan || !hasPrd) && hasResearch then .researched
  else if state == .planned && !hasPlan && !hasPrd then
    (if hasResearch then .researched else .raw)
  else state

/-- Modelled from the spec: "the highest state whose prerequisites are
actually satisfied by present artifacts" — prerequisites are cumulative along
the ordering: researched needs research.md, planned additionally needs
plan.md and prd.json (spec sections 4.1 and 4.6). -/
def specHighestSupportedState (hasResearch hasPlan hasPrd : Bool) : WorkflowState :=
  if hasResearch && hasPlan && hasPrd then .planned
  else if hasResearch then .researched
  else .raw

/-- A git world with no open PRs whose next gh pr create exits non-zero. -/
def failingCreateGit : GitState :=
  { localBranches := ["main"]
    currentBranch := "main"
    dirty := false
    prs := []
    createPrExit := 1
    createPrStdout := ""
    createRetrieveFails := false
    nextPrUrl := ""
    nextPrNumber := 1
    mergedPrs := []
    events := [] }

/-- A delivery-ready concrete item: implementing, one done story. -/
def deliveryStory : Story :=
  { id := "S1", title := "s", acceptance_criteria := [], priority := 1
    status := .done, notes := "" }

/-- The story document of the concrete delivery item. -/
def deliveryPrd : Prd :=
  { schema_version := 1, id := "core/001-a", branch_name := "wreckit/core-001-a"
    user_stories := [deliveryStory] }

/-- The concrete delivery item's world: state implementing, valid prd. -/
def deliveryFs : ItemFs :=
  { item := { id := "core/001-a", title := "A", sect := "core", state := .implementing
              overview := "o", branch := none, pr_url := none, pr_number := none
              last_error := none }
    art := { hasResearchMd := true, hasPlanMd := true
             prdFile := some (some deliveryPrd), progressCount := 0 } }

/-- A git world with a dirty tree, the work branch present, and an open PR #7
for that branch. -/
def deliveryGit : GitState :=
  { localBranches := ["main", "wreckit/core-001-a"]
    currentBranch := "main"
    dirty := true
    prs := [("wreckit/core-001-a", { url := "https://github.com/x/y/pull/7", number := 7 })]
    createPrExit := 0
    createPrStdout := ""
    createRetrieveFails := false
    nextPrUrl := "https://github.com/x/y/pull/8"
    nextPrNumber := 8
    mergedPrs := []
    events := [] }

/-- An agent oracle that succeeds and leaves the artifacts unchanged. -/
def inertAgent : AgentBehavior := fun a => (dryRunAgentResult, a)

/-- A raw item whose research.md already exists (the research skip path). -/
def rawWithResearchFs : ItemFs :=
  { item := { id := "core/002-b", title := "B", sect := "core", state := .raw
              overview := "o", branch := none, pr_url := none, pr_number := none
              last_error := none }
    art := { hasResearchMd := true, hasPlanMd := false, prdFile := none
             progressCount := 0 } }

/-- Iteration counter carried by a loop outcome. -/
def implIteration : ImplLoopRes → Nat
  | .dryExit _ i => i
  | .failed _ _ i => i
  | .exited _ _ i => i

/-- World carried by a loop outcome. -/
def implFs : ImplLoopRes → ItemFs
  | .dryExit fs _ => fs
  | .failed fs _ _ => fs
  | .exited _ fs _ => fs

/-- An agent oracle that reports success but never changes any artifact (in
particular never marks a story done). -/
def stubbornAgent : AgentBehavior :=
  fun a =>
    ({ success := true, output := "", timedOut := false, exitCode := some 0
       completionDetected := true }, a)

/-- A story still pending. -/
def pendingStory : Story :=
  { id := "S1", title := "s", acceptance_criteria := [], priority := 1
    status := .pending, notes := "" }

/-- A story document with one pending story. -/
def pendingPrd : Prd :=
  { schema_version := 1, id := "core/003-c", branch_name := "wreckit/core-003-c"
    user_stories := [pendingStory] }

/-- An implementing item whose story document still has a pending story. -/
def implementingFs : ItemFs :=
  { item := { id := "core/003-c", title := "C", sect := "core", state := .implementing
              overview := "o", branch := none, pr_url := none, pr_number := none
              last_error := none }
    art := { hasResearchMd := true, hasPlanMd := true
             prdFile := some (some pendingPrd), progressCount := 0 } }

/-- An agent that writes research.md (and succeeds), as the research phase
expects. -/
def researchWritingAgent : AgentBehavior :=
  fun a =>
    ({ success := true, output := "", timedOut := false, exitCode := some 0
       completionDetected := true }, { a with hasResearchMd := true })

/-- A planned item with no research.md on disk. -/
def plannedNoResearchFs : ItemFs :=
  { item := { id := "core/004-d", title := "D", sect := "core", state := .planned
              overview := "o", branch := none, pr_url := none, pr_number := none
              last_error := none }
    art := { hasResearchMd := false, hasPlanMd := true, prdFile := none
             progressCount := 0 } }

/-- An in_pr item used to witness the monotonicity theorem. -/
def inPrItemFs : ItemFs :=
  { deliveryFs with item := { deliveryFs.item with state := .in_pr } }

/-- C7 -- validateTransition(raw, researched, ctx) is valid iff
ctx.hasResearchMd, carries a reason when invalid, and every target that is not
the single allowed next state is rejected with a reason. -/
theorem validateTransition_raw_researched_iff_and_rejects_nonsuccessor :
    ∀ (ctx : ValidationContext) (current target : WorkflowState),
      ((validateTransition .raw .researched ctx).valid = ctx.hasResearchMd) ∧
      (ctx.hasResearchMd = false →
        (validateTransition .raw .researched ctx).reason = some "research.md does not exist") ∧
      ((getAllowedNextStates current).contains target = false →
        (validateTransition current target ctx).valid = false ∧
        (validateTransition current target ctx).reason =
          some ("cannot transition from " ++ stateName current ++ " to " ++ stateName target)) := by
  intro ctx current target
  refine ⟨?_, ?_, ?_⟩
  · have hallow : getAllowedNextStates .raw = [.researched] := rfl
    simp only [validateTransition, hallow]
    cases h : ctx.hasResearchMd <;> simp [canEnterResearched, h]
  · intro h
    have hallow : getAllowedNextStates .raw = [.researched] := rfl
    simp [validateTransition, hallow, canEnterResearched, h]
  · intro h
    have h' : target ∉ getAllowedNextStates current := by simpa using h
    simp [validateTransition, h']

/-- C7 witness: concrete evaluation of the theorem at ctx with no research
artifact, current = raw, target = planned. -/
theorem validateTransition_raw_researched_witness :
    (validateTransition .raw .researched
        ⟨false, false, none, false, false⟩).valid = false ∧
    (validateTransition .raw .researched
        ⟨false, false, none, false, false⟩).reason = some "research.md does not exist" ∧
    (validateTransition .raw .planned ⟨false, false, none, false, false⟩).valid = false := by
  have h := validateTransition_raw_researched_iff_and_rejects_nonsuccessor
    ⟨false, false, none, false, false⟩ .raw .planned
  exact ⟨h.1, h.2.1 rfl, (h.2.2 (by decide)).1⟩

/-- C10 -- an absent story document or an empty story list makes
allStoriesDone false, so the in_pr guard fails with reason
"not all stories are done". -/
theorem canEnterInPr_rejects_empty_or_absent_stories :
    ∀ ctx : ValidationContext,
      (ctx.prd = none ∨ ∃ p, ctx.prd = some p ∧ p.user_stories = []) →
      allStoriesDone ctx.prd = false ∧
      canEnterInPr ctx = { valid := false, reason := some "not all stories are done" } := by
  intro ctx h
  have hall : allStoriesDone ctx.prd = false := by
    rcases h with h | ⟨p, hp, hempty⟩
    · rw [h]; rfl
    · rw [hp]; simp [allStoriesDone, hempty]
  exact ⟨hall, by simp [canEnterInPr, hall]⟩

/-- C10 witness: concrete evaluation at a context with no story document. -/
theorem canEnterInPr_rejects_witness :
    allStoriesDone (none : Option Prd) = false ∧
    canEnterInPr ⟨true, true, none, true, false⟩ =
      { valid := false, reason := some "not all stories are done" } :=
  canEnterInPr_rejects_empty_or_absent_stories ⟨true, true, none, true, false⟩ (Or.inl rfl)

/-- Containment in a char list is preserved by appending on the right. -/
theorem jsIncludes_append_right {pat l : List Char} (r : List Char)
    (h : jsIncludes l pat = true) : jsIncludes (l ++ r) pat = true := by
  simp only [jsIncludes, decide_eq_true_eq] at h ⊢
  obtain ⟨s, t, rfl⟩ := h
  exact ⟨s, t ++ r, by simp⟩

/-- Auxiliary: over a nonempty chunk list, the incremental scanner detects the
signal iff the signal occurs in the final accumulated output. -/
theorem streamScan_detect_aux (signal : List Char) :
    ∀ (chunks : List (List Char)) (acc : List Char) (det : Bool), chunks ≠ [] →
      (chunks.foldl
        (fun st chunk =>
          let output := st.1 ++ chunk
          (output, st.2 || jsIncludes output signal)) (acc, det)) =
      (acc ++ chunks.flatten, det || jsIncludes (acc ++ chunks.flatten) signal) := by
  intro chunks
  induction chunks with
  | nil => intro acc det h; exact absurd rfl h
  | cons c cs ih =>
    intro acc det _
    cases cs with
    | nil => simp
    | cons c' cs' =>
      rw [List.foldl_cons, ih (acc ++ c) (det || jsIncludes (acc ++ c) signal) (by simp)]
      have hflat : (c :: c' :: cs').flatten = c ++ (c' :: cs').flatten := by simp
      rw [hflat, ← List.append_assoc]
      refine Prod.ext rfl ?_
      by_cases h1 : jsIncludes (acc ++ c) signal = true
      · have h2 : jsIncludes (acc ++ (c ++ (c' ++ cs'.flatten))) signal = true := by
          have := jsIncludes_append_right ((c' :: cs').flatten) h1
          simpa using this
        simp [h1, h2]
      · simp [Bool.not_eq_true] at h1
        simp [h1]

/-- C4 (amended) -- for every observed agent run whose configured completion
signal is nonempty (or which streamed at least one chunk), the adapter's
success is true iff the exit code is 0 and the signal occurs as a substring of
the concatenated streamed output. -/
theorem runAgentClose_success_iff :
    ∀ (signal : List Char) (chunks : List (List Char)) (exitCode : Option Int)
      (timedOut : Bool),
      (signal ≠ [] ∨ chunks ≠ []) →
      (runAgentClose signal chunks exitCode timedOut).success =
        ((exitCode == some 0) && jsIncludes chunks.flatten signal) := by
  intro signal chunks exitCode timedOut h
  rcases hc : chunks with _ | ⟨c, cs⟩
  · rcases h with h | h
    · have hs : jsIncludes (List.flatten ([] : List (List Char))) signal = false := by
        simp only [jsIncludes, List.flatten_nil, decide_eq_false_iff_not]
        intro hinf
        obtain ⟨s, t, hst⟩ := hinf
        have h1 := List.append_eq_nil.mp hst
        have h2 := List.append_eq_nil.mp h1.1
        exact h h2.2
      simp [runAgentClose, streamScan, List.flatten_nil] at hs ⊢
      simp [hs]
    · exact absurd hc h
  · have := streamScan_detect_aux signal (c :: cs) [] false (by simp)
    simp only [runAgentClose, streamScan, this]
    simp

/-- C4 witness: a run with nonempty signal, chunks ["ok <promise>", "COMPLETE</promise>"]
and exit code 0 is successful, via the amended theorem. -/
theorem runAgentClose_success_iff_witness :
    (runAgentClose "<promise>COMPLETE</promise>".toList
        ["ok <promise>".toList, "COMPLETE</promise>".toList] (some 0) false).success =
      ((some (0 : Int) == some 0) &&
        jsIncludes (["ok <promise>".toList, "COMPLETE</promise>".toList] : List (List Char)).flatten
          "<promise>COMPLETE</promise>".toList) := by
  exact runAgentClose_success_iff _ _ (some 0) false (Or.inl (by decide))

/-- C4 counterexample -- with an empty configured signal and a run that
streamed no output, the exit code is 0 and the (empty) signal is trivially a
substring of the (empty) concatenated output, yet success is false: the claim,
read over all configured markers, fails at this input. -/
theorem runAgentClose_empty_signal_counterexample :
    (runAgentClose [] [] (some 0) false).success = false ∧
    jsIncludes (([] : List (List Char)).flatten) [] = true ∧
    (runAgentClose [] [] (some 0) false).exitCode = some 0 := by
  refine ⟨rfl, ?_, rfl⟩
  simp [jsIncludes]

/-- C6 -- every applied state/artifact-mismatch repair (one that changes the
state) only regresses the state index and lands exactly on the highest state
whose prerequisite artifacts are present on disk. -/
theorem applyStateFileMismatchFix_regresses_to_supported :
    ∀ (state : WorkflowState) (hasResearch hasPlan hasPrd : Bool),
      applyStateFileMismatchFix state hasResearch hasPlan hasPrd ≠ state →
      getStateIndex (applyStateFileMismatchFix state hasResearch hasPlan hasPrd) ≤
          getStateIndex state ∧
      applyStateFileMismatchFix state hasResearch hasPlan hasPrd =
          specHighestSupportedState hasResearch hasPlan hasPrd := by
  intro state hasResearch hasPlan hasPrd
  cases state <;> cases hasResearch <;> cases hasPlan <;> cases hasPrd <;> decide

/-- C6 witness: the repair applied to a researched record whose research.md is
missing resets it to raw, the highest supported state. -/
theorem applyStateFileMismatchFix_witness :
    getStateIndex (applyStateFileMismatchFix .researched false true true) ≤
        getStateIndex .researched ∧
    applyStateFileMismatchFix .researched false true true =
        specHighestSupportedState false true true :=
  applyStateFileMismatchFix_regresses_to_supported .researched false true true (by decide)

/-- Lookup in the open-PR table extended on the right with the searched key
finds the new entry when the key was absent before. -/
theorem prLookup_append_singleton {l : List (String × PrInfo)} {k : String}
    (h : prLookup l k = none) (x : PrInfo) : prLookup (l ++ [(k, x)]) k = some x := by
  induction l with
  | nil => simp [prLookup]
  | cons a t ih =>
      rcases a with ⟨k', v⟩
      cases hk : k == k' with
      | true => simp [prLookup, hk] at h
      | false =>
          simp only [List.cons_append, prLookup, hk, Bool.false_eq_true, if_false] at h ⊢
          exact ih h

/-- C8 (amended) -- createOrUpdatePr raises an error exactly when, outside
dry-run, no PR is found for the head branch and either the underlying
gh pr create command exits non-zero ("Failed to create PR"), or the create
exits zero but the follow-up gh pr view fails to retrieve the created PR
("PR was created but could not retrieve its info"); in every other situation
(and in every other adapter operation, which return plain values by
construction) the caller receives a structured result. -/
theorem createOrUpdatePr_error_characterization :
    ∀ (baseBranch headBranch title body : String) (dryRun : Bool) (g : GitState),
      (∃ e, createOrUpdatePr baseBranch headBranch title body dryRun g = Except.error e) ↔
      (dryRun = false ∧ prLookup g.prs headBranch = none ∧
        (g.createPrExit ≠ 0 ∨ g.createRetrieveFails = true)) := by
  intro baseBranch headBranch title body dryRun g
  cases dryRun with
  | true => simp [createOrUpdatePr]
  | false =>
      simp only [createOrUpdatePr, Bool.false_eq_true, if_false, getPrByBranch]
      rcases hl : prLookup g.prs headBranch with _ | pr
      · by_cases he : g.createPrExit = 0
        · have hlook := prLookup_append_singleton (l := g.prs) (k := headBranch) hl
          cases hrf : g.createRetrieveFails with
          | true => simp [he, hlook, hrf]
          | false => simp [he, hlook, hrf]
        · simp [he, bne_iff_ne]
      · simp [hl]

/-- C8 witness: the characterization instantiated at the failing git world
produces the thrown error. -/
theorem createOrUpdatePr_error_characterization_witness :
    ∃ e, createOrUpdatePr "main" "wreckit/core-001-a" "t" "b" false failingCreateGit =
      Except.error e :=
  (createOrUpdatePr_error_characterization "main" "wreckit/core-001-a" "t" "b" false
    failingCreateGit).mpr ⟨rfl, rfl, Or.inl (by decide)⟩

/-- C8 counterexample -- the claim as stated is false: createOrUpdatePr (a VCS
Adapter operation) reacts to a non-zero exit of the underlying gh pr create
command by throwing ("Failed to create PR: ..."), not by returning a result
value. -/
theorem createOrUpdatePr_throws_counterexample :
    createOrUpdatePr "main" "wreckit/core-001-a" "t" "b" false failingCreateGit =
      Except.error "Failed to create PR: " := by
  rfl

/-- A single delivery run against a branch that already has an open PR: the
runner succeeds, records exactly the existing PR's url and number, and leaves
the open-PR table unchanged (the PR is edited in place, never duplicated). -/
theorem runPhasePr_existing_pr_aux
    (baseBranch branchPfx : String) (fs : ItemFs) (g : GitState) (pr : PrInfo)
    (hstate : fs.item.state = .implementing)
    (hstories : allStoriesDone (loadPrdSafe fs.art) = true)
    (hpr : prLookup g.prs (branchPfx ++ replaceFirstSlash fs.item.id) = some pr) :
    match runPhasePr baseBranch branchPfx false fs g with
    | Except.ok (r, fs', g₁) =>
        r.success = true ∧ fs'.item.state = .in_pr ∧
        fs'.item.branch = some (branchPfx ++ replaceFirstSlash fs.item.id) ∧
        fs'.item.pr_url = some pr.url ∧ fs'.item.pr_number = some pr.number ∧
        fs'.item.last_error = none ∧ g₁.prs = g.prs
    | Except.error _ => False := by
  by_cases hb : (branchPfx ++ replaceFirstSlash fs.item.id) ∈ g.localBranches
  · by_cases hd : g.dirty = true
    · simp [runPhasePr, hstate, ensureBranch, hasUncommittedChanges, commitAll,
        pushBranch, createOrUpdatePr, getPrByBranch, saveItem, hb, hd, hstories, hpr]
    · rw [Bool.not_eq_true] at hd
      simp [runPhasePr, hstate, ensureBranch, hasUncommittedChanges, commitAll,
        pushBranch, createOrUpdatePr, getPrByBranch, saveItem, hb, hd, hstories, hpr]
  · by_cases hd : g.dirty = true
    · simp [runPhasePr, hstate, ensureBranch, hasUncommittedChanges, commitAll,
        pushBranch, createOrUpdatePr, getPrByBranch, saveItem, hb, hd, hstories, hpr]
    · rw [Bool.not_eq_true] at hd
      simp [runPhasePr, hstate, ensureBranch, hasUncommittedChanges, commitAll,
        pushBranch, createOrUpdatePr, getPrByBranch, saveItem, hb, hd, hstories, hpr]

/-- C5 -- invoking the delivery runner against an item whose branch already
has an open PR succeeds with exactly the existing PR's number (and url), never
mutating the open-PR table; invoking it again (same item id, again eligible)
yields the same number and still leaves the PR table unchanged: no duplicate
PR is ever created. -/
theorem runPhasePr_idempotent_same_pr_number :
    ∀ (baseBranch branchPfx : String) (fs : ItemFs) (g : GitState) (pr : PrInfo),
      fs.item.state = .implementing →
      allStoriesDone (loadPrdSafe fs.art) = true →
      prLookup g.prs (branchPfx ++ replaceFirstSlash fs.item.id) = some pr →
      ∃ r₁ fs₁ g₁,
        runPhasePr baseBranch branchPfx false fs g = Except.ok (r₁, fs₁, g₁) ∧
        r₁.success = true ∧ fs₁.item.pr_number = some pr.number ∧
        fs₁.item.pr_url = some pr.url ∧ g₁.prs = g.prs ∧
        (∀ fs₂ : ItemFs, fs₂.item.id = fs.item.id →
          fs₂.item.state = .implementing →
          allStoriesDone (loadPrdSafe fs₂.art) = true →
          ∃ r₂ fs₃ g₂,
            runPhasePr baseBranch branchPfx false fs₂ g₁ = Except.ok (r₂, fs₃, g₂) ∧
            r₂.success = true ∧ fs₃.item.pr_number = some pr.number ∧ g₂.prs = g.prs) := by
  intro baseBranch branchPfx fs g pr hstate hstories hpr
  have h1 := runPhasePr_existing_pr_aux baseBranch branchPfx fs g pr hstate hstories hpr
  rcases hrun : runPhasePr baseBranch branchPfx false fs g with e | ⟨r₁, fs₁, g₁⟩
  · rw [hrun] at h1
    exact h1.elim
  · rw [hrun] at h1
    refine ⟨r₁, fs₁, g₁, rfl, h1.1, h1.2.2.2.2.1, h1.2.2.2.1, h1.2.2.2.2.2.2, ?_⟩
    intro fs₂ hid hstate₂ hstories₂
    have hpr₂ : prLookup g₁.prs (branchPfx ++ replaceFirstSlash fs₂.item.id) = some pr := by
      rw [h1.2.2.2.2.2.2, hid]
      exact hpr
    have h2 := runPhasePr_existing_pr_aux baseBranch branchPfx fs₂ g₁ pr hstate₂ hstories₂ hpr₂
    rcases hrun₂ : runPhasePr baseBranch branchPfx false fs₂ g₁ with e | ⟨r₂, fs₃, g₂⟩
    · rw [hrun₂] at h2
      exact h2.elim
    · rw [hrun₂] at h2
      refine ⟨r₂, fs₃, g₂, rfl, h2.1, h2.2.2.2.2.1, ?_⟩
      rw [h2.2.2.2.2.2.2, h1.2.2.2.2.2.2]

/-- C5 witness: both invocations at the concrete delivery world return PR
number 7, with the PR table untouched. -/
theorem runPhasePr_idempotent_witness :
    ∃ r₁ fs₁ g₁,
      runPhasePr "main" "wreckit/" false deliveryFs deliveryGit = Except.ok (r₁, fs₁, g₁) ∧
      r₁.success = true ∧
      fs₁.item.pr_number = some (7 : Int) ∧
      fs₁.item.pr_url = some "https://github.com/x/y/pull/7" ∧
      g₁.prs = deliveryGit.prs ∧
      (∀ fs₂ : ItemFs, fs₂.item.id = deliveryFs.item.id →
        fs₂.item.state = .implementing →
        allStoriesDone (loadPrdSafe fs₂.art) = true →
        ∃ r₂ fs₃ g₂,
          runPhasePr "main" "wreckit/" false fs₂ g₁ = Except.ok (r₂, fs₃, g₂) ∧
          r₂.success = true ∧ fs₃.item.pr_number = some (7 : Int) ∧
          g₂.prs = deliveryGit.prs) :=
  runPhasePr_idempotent_same_pr_number "main" "wreckit/" deliveryFs deliveryGit
    { url := "https://github.com/x/y/pull/7", number := 7 } rfl (by decide) (by decide)

/-- C9 -- exhibit of the dry-run frame violation: the research runner invoked
with dryRun = true on a raw item whose research artifact already exists takes
the skip path, reports success, and PERSISTS the state normalization
raw -> researched — the on-disk world after the call differs from the one
before, although dry-run mode promises no side effects.  (This call is
reachable: the run command's artifact-skip path invokes the runner with the
caller's dryRun flag before its own dry-run check.) -/
theorem runPhaseResearch_dryRun_skip_persists :
    (runPhaseResearch inertAgent false true rawWithResearchFs).1.success = true ∧
    rawWithResearchFs.item.state = .raw ∧
    (runPhaseResearch inertAgent false true rawWithResearchFs).2.item.state = .researched ∧
    (runPhaseResearch inertAgent false true rawWithResearchFs).2 ≠ rawWithResearchFs := by
  refine ⟨rfl, rfl, rfl, ?_⟩
  intro h
  have hstate := congrArg (fun fs => fs.item.state) h
  simp only at hstate
  exact absurd hstate (by decide)

/-- Inserting preserves length plus one. -/
theorem insertByPriority_length (s : Story) :
    ∀ l : List Story, (insertByPriority s l).length = l.length + 1 := by
  intro l
  induction l with
  | nil => rfl
  | cons t ts ih =>
      simp only [insertByPriority]
      split
      · simp [ih]
      · simp

/-- Auxiliary: folding insertions adds exactly the folded elements. -/
theorem sortByPriority_foldl_length (l : List Story) :
    ∀ acc : List Story,
      (l.foldl (fun sorted story => insertByPriority story sorted) acc).length =
        l.length + acc.length := by
  induction l with
  | nil => intro acc; simp
  | cons t ts ih =>
      intro acc
      rw [List.foldl_cons, ih (insertByPriority t acc), insertByPriority_length]
      simp only [List.length_cons]
      omega

/-- The stable sort preserves length. -/
theorem sortByPriority_length (l : List Story) :
    (sortByPriority l).length = l.length := by
  rw [sortByPriority, sortByPriority_foldl_length]
  rfl

/-- With a pending story present, the sorted pending list cannot be empty. -/
theorem sortByPriority_filter_ne_nil (prd : Prd)
    (hp : hasPendingStories (some prd) = true) :
    sortByPriority (prd.user_stories.filter (fun s => s.status == StoryStatus.pending)) ≠ [] := by
  intro hnil
  have hlen := sortByPriority_length
    (prd.user_stories.filter (fun s => s.status == StoryStatus.pending))
  rw [hnil] at hlen
  have hfil : prd.user_stories.filter (fun s => s.status == StoryStatus.pending) = [] :=
    List.eq_nil_of_length_eq_zero hlen.symm
  simp only [hasPendingStories, List.any_eq_true] at hp
  obtain ⟨s, hmem, hps⟩ := hp
  have hsin : s ∈ prd.user_stories.filter (fun st => st.status == StoryStatus.pending) :=
    List.mem_filter.mpr ⟨hmem, hps⟩
  rw [hfil] at hsin
  exact absurd hsin (List.not_mem_nil s)

/-- Combined loop invariants: the iteration counter is bounded by
iteration + fuel; the loop never touches the item record; outside dry-run it
never takes the dry exit; and a normal exit carries the prd that the final
world's artifact store holds, with the counter fully exhausted whenever
pending stories remain. -/
theorem implementLoop_spec (agent : AgentBehavior) (dry : Bool) :
    ∀ (fuel iteration : Nat) (prd : Prd) (fs : ItemFs),
      implIteration (implementLoop agent dry fuel iteration prd fs) ≤ iteration + fuel ∧
      (implFs (implementLoop agent dry fuel iteration prd fs)).item = fs.item ∧
      (dry = false → ∀ fsd i, implementLoop agent dry fuel iteration prd fs ≠ .dryExit fsd i) ∧
      (∀ prd' fs' i, implementLoop agent dry fuel iteration prd fs = .exited prd' fs' i →
        (loadPrdSafe fs.art = some prd → loadPrdSafe fs'.art = some prd') ∧
        (hasPendingStories (some prd') = true → i = iteration + fuel)) := by
  intro fuel
  induction fuel with
  | zero =>
      intro iteration prd fs
      refine ⟨by simp only [implementLoop, implIteration]; omega, rfl,
        by simp [implementLoop], ?_⟩
      intro prd' fs' i h
      simp only [implementLoop] at h
      cases h
      exact ⟨fun hl => hl, fun _ => rfl⟩
  | succ n ih =>
      intro iteration prd fs
      by_cases hp : hasPendingStories (some prd) = true
      · rcases hsort : sortByPriority
            (prd.user_stories.filter (fun s => s.status == StoryStatus.pending)) with _ | ⟨s0, rest⟩
        · exact absurd hsort (sortByPriority_filter_ne_nil prd hp)
        · cases hdry : dry with
          | true =>
              have hred : implementLoop agent true (n + 1) iteration prd fs =
                  .dryExit { fs with art := fs.art } (iteration + 1) := by
                simp [implementLoop, hp, hsort, runAgentM]
              subst hdry
              rw [hred]
              refine ⟨by simp only [implIteration]; omega, rfl, ?_, ?_⟩
              · intro hcontra; cases hcontra
              · intro prd' fs' i h; cases h
          | false =>
              subst hdry
              rcases hsucc : (agent fs.art).1.success with _ | _
              · have hred : implementLoop agent false (n + 1) iteration prd fs =
                    .failed { fs with art := (agent fs.art).2 }
                      (agentFailError (agent fs.art).1) (iteration + 1) := by
                  simp [implementLoop, hp, hsort, runAgentM, hsucc]
                rw [hred]
                refine ⟨by simp only [implIteration]; omega, rfl, by simp, ?_⟩
                intro prd' fs' i h; cases h
              · rcases hload : loadPrdSafe (agent fs.art).2 with _ | prd2
                · have hred : implementLoop agent false (n + 1) iteration prd fs =
                      .failed { fs with art := (agent fs.art).2 }
                        "prd.json became invalid during implementation" (iteration + 1) := by
                    simp [implementLoop, hp, hsort, runAgentM, hsucc, hload]
                  rw [hred]
                  refine ⟨by simp only [implIteration]; omega, rfl, by simp, ?_⟩
                  intro prd' fs' i h; cases h
                · have hred : implementLoop agent false (n + 1) iteration prd fs =
                      implementLoop agent false n (iteration + 1) prd2
                        { fs with art := { (agent fs.art).2 with
                            progressCount := (agent fs.art).2.progressCount + 1 } } := by
                    simp [implementLoop, hp, hsort, runAgentM, hsucc, hload]
                  rw [hred]
                  obtain ⟨ih1, ih2, ih3, ih4⟩ := ih (iteration + 1) prd2
                    { fs with art := { (agent fs.art).2 with
                        progressCount := (agent fs.art).2.progressCount + 1 } }
                  refine ⟨by omega, ih2, ih3, ?_⟩
                  intro prd' fs' i h
                  obtain ⟨h4a, h4b⟩ := ih4 prd' fs' i h
                  refine ⟨?_, ?_⟩
                  · intro _
                    apply h4a
                    simp only [loadPrdSafe] at hload ⊢
                    exact hload
                  · intro hpend
                    have := h4b hpend
                    omega
      · have hred : implementLoop agent dry (n + 1) iteration prd fs =
            .exited prd fs iteration := by
          rw [Bool.not_eq_true] at hp
          simp [implementLoop, hp]
        rw [hred]
        refine ⟨?_, ?_, ?_, ?_⟩
        · simp only [implIteration]; omega
        · rfl
        · intro _ fsd i h
          cases h
        · intro prd' fs' i h
          cases h
          refine ⟨fun hl => hl, ?_⟩
          intro hpend
          rw [Bool.not_eq_true] at hp
          rw [hp] at hpend
          cases hpend

/-- Against the stubborn agent the loop burns its entire fuel and exits with
the same pending prd. -/
theorem implementLoop_stubborn (prd : Prd) (hp : hasPendingStories (some prd) = true) :
    ∀ (fuel iteration : Nat) (fs : ItemFs), loadPrdSafe fs.art = some prd →
      ∃ fs', implementLoop stubbornAgent false fuel iteration prd fs =
          .exited prd fs' (iteration + fuel) ∧ loadPrdSafe fs'.art = some prd := by
  intro fuel
  induction fuel with
  | zero =>
      intro iteration fs hl
      exact ⟨fs, by simp [implementLoop], hl⟩
  | succ n ih =>
      intro iteration fs hl
      rcases hsort : sortByPriority
          (prd.user_stories.filter (fun s => s.status == StoryStatus.pending)) with _ | ⟨s0, rest⟩
      · exact absurd hsort (sortByPriority_filter_ne_nil prd hp)
      · have hred : implementLoop stubbornAgent false (n + 1) iteration prd fs =
            implementLoop stubbornAgent false n (iteration + 1) prd
              { fs with art := { fs.art with progressCount := fs.art.progressCount + 1 } } := by
          simp [implementLoop, hp, hsort, runAgentM, stubbornAgent, hl]
        rw [hred]
        have hl2 : loadPrdSafe
            ({ fs with art := { fs.art with
                progressCount := fs.art.progressCount + 1 } } : ItemFs).art = some prd := by
          simpa [loadPrdSafe] using hl
        obtain ⟨fs', hrun, hl'⟩ := ih (iteration + 1) _ hl2
        refine ⟨fs', ?_, hl'⟩
        have harith : iteration + (n + 1) = iteration + 1 + n := by omega
        rw [harith]
        exact hrun

/-- All stories done excludes any pending story (status is binary). -/
theorem hasPendingStories_eq_false_of_allDone (prd : Prd)
    (h : allStoriesDone (some prd) = true) : hasPendingStories (some prd) = false := by
  cases hlen : (prd.user_stories.length == 0) with
  | true => simp [allStoriesDone, hlen] at h
  | false =>
      simp only [allStoriesDone, hlen, Bool.false_eq_true, if_false] at h
      cases hany : hasPendingStories (some prd) with
      | false => rfl
      | true =>
          exfalso
          simp only [hasPendingStories, List.any_eq_true] at hany
          obtain ⟨s, hmem, hs⟩ := hany
          rw [List.all_eq_true] at h
          have hd := h s hmem
          rcases hstatus : s.status with _ | _
          · rw [hstatus] at hd
            exact absurd hd (by decide)
          · rw [hstatus] at hs
            exact absurd hs (by decide)

/-- C3 -- for every agent behaviour and configuration: the implement runner
executes at most max_iterations loop iterations (third component of the
result); outside dry-run, whenever the final world still has pending stories
the runner has returned failure rather than looping further; and against an
agent that never advances any story, a pending implementing item ends in
failure with the max-iterations error recorded. -/
theorem runPhaseImplement_bounded_max_iterations :
    ∀ (agent : AgentBehavior) (maxIterations : Nat) (force dryRun : Bool) (fs : ItemFs),
      (runPhaseImplement agent maxIterations force dryRun fs).2.2 ≤ maxIterations ∧
      (dryRun = false →
        hasPendingStories
          (loadPrdSafe (runPhaseImplement agent maxIterations force dryRun fs).2.1.art) = true →
        (runPhaseImplement agent maxIterations force dryRun fs).1.success = false) ∧
      (agent = stubbornAgent → dryRun = false → fs.item.state = .implementing →
        hasPendingStories (loadPrdSafe fs.art) = true →
        (runPhaseImplement agent maxIterations force dryRun fs).1.error =
          some ("Reached max iterations (" ++ toString maxIterations ++
            ") with stories still pending") ∧
        (runPhaseImplement agent maxIterations force dryRun fs).1.success = false) := by
  intro agent maxIterations force dryRun fs
  by_cases helig :
      (fs.item.state != .planned && fs.item.state != .implementing && !force) = true
  · have hR : runPhaseImplement agent maxIterations force dryRun fs =
        ({ success := false, item := fs.item
           error := some ("Item is in state " ++ stateName fs.item.state ++
             ", expected \x27planned\x27 or \x27implementing\x27 for implement phase") },
         fs, 0) := by
      simp only [runPhaseImplement, helig, if_true]
    rw [hR]
    refine ⟨Nat.zero_le _, fun _ _ => rfl, ?_⟩
    intro _ _ hstate _
    rw [hstate] at helig
    simp at helig
  · rcases hload : loadPrdSafe fs.art with _ | prd
    · have hR : runPhaseImplement agent maxIterations force dryRun fs =
          ({ success := false, item := { fs.item with last_error := some "prd.json not found or invalid" }
             error := some "prd.json not found or invalid" },
           saveItem fs { fs.item with last_error := some "prd.json not found or invalid" }, 0) := by
        simp only [runPhaseImplement, helig, if_false, hload, Bool.false_eq_true]
      rw [hR]
      refine ⟨Nat.zero_le _, fun _ _ => rfl, ?_⟩
      intro _ _ _ hpend
      simp [hasPendingStories] at hpend
    · by_cases hdone : allStoriesDone (some prd) = true
      · have hR : runPhaseImplement agent maxIterations force dryRun fs =
            ({ success := true, item := fs.item, error := none }, fs, 0) := by
          simp only [runPhaseImplement, helig, if_false, hload, hdone, if_true,
            Bool.false_eq_true]
        rw [hR]
        have hnp := hasPendingStories_eq_false_of_allDone prd hdone
        refine ⟨Nat.zero_le _, ?_, ?_⟩
        · intro _ hpend
          simp [hload, hnp] at hpend
        · intro _ _ _ hpend
          simp [hnp] at hpend
      · set st := (if fs.item.state == WorkflowState.planned then
            ({ fs.item with state := WorkflowState.implementing },
              saveItem fs { fs.item with state := WorkflowState.implementing })
          else (fs.item, fs)) with hst
        have hstep : loadPrdSafe st.2.art = some prd := by
          rw [hst]
          by_cases hplan : (fs.item.state == WorkflowState.planned) = true
          · simp [hplan, saveItem, hload]
          · simp only [Bool.not_eq_true] at hplan
            simp [hplan, hload]
        obtain ⟨hb1, hb2, hb3, hb4⟩ :=
          implementLoop_spec agent dryRun maxIterations 0 prd st.2
        rcases hloop : implementLoop agent dryRun maxIterations 0 prd st.2 with
          ⟨fsl, i⟩ | ⟨fsl, err, i⟩ | ⟨prd', fsl, i⟩
        · have hR : runPhaseImplement agent maxIterations force dryRun fs =
              ({ success := true, item := st.1, error := none }, fsl, i) := by
            simp only [runPhaseImplement, helig, Bool.false_eq_true, if_false, hload,
              hdone, ← hst, hloop]
          rw [hR]
          rw [hloop] at hb1
          simp only [implIteration] at hb1
          refine ⟨by show i ≤ maxIterations; omega, ?_, ?_⟩
          · intro hdf _
            exact absurd hloop (hb3 hdf fsl i)
          · intro _ hdf _ _
            exact absurd hloop (hb3 hdf fsl i)
        · have hR : runPhaseImplement agent maxIterations force dryRun fs =
              ({ success := false, item := { st.1 with last_error := some err }
                 error := some err },
               saveItem fsl { st.1 with last_error := some err }, i) := by
            simp only [runPhaseImplement, helig, Bool.false_eq_true, if_false, hload,
              hdone, ← hst, hloop]
          rw [hR]
          rw [hloop] at hb1
          simp only [implIteration] at hb1
          refine ⟨by show i ≤ maxIterations; omega, fun _ _ => rfl, ?_⟩
          intro hagent hdf _ hpend
          subst hagent
          subst hdf
          obtain ⟨fs', hex, _⟩ := implementLoop_stubborn prd hpend maxIterations 0 st.2 hstep
          rw [hloop] at hex
          cases hex
        · by_cases hmax : (decide (i ≥ maxIterations) && hasPendingStories (some prd')) = true
          · have hR : runPhaseImplement agent maxIterations force dryRun fs =
                ({ success := false, item := { st.1 with last_error := some ("Reached max iterations (" ++ toString maxIterations ++ ") with stories still pending") }, error := some ("Reached max iterations (" ++ toString maxIterations ++ ") with stories still pending") }, saveItem fsl { st.1 with last_error := some ("Reached max iterations (" ++ toString maxIterations ++ ") with stories still pending") }, i) := by
              simp only [runPhaseImplement, helig, Bool.false_eq_true, if_false, hload,
                hdone, ← hst, hloop, hmax, if_true]
            rw [hR]
            rw [hloop] at hb1
            simp only [implIteration] at hb1
            refine ⟨by show i ≤ maxIterations; omega, fun _ _ => rfl, ?_⟩
            intro _ _ _ _
            exact ⟨rfl, rfl⟩
          · have hR : runPhaseImplement agent maxIterations force dryRun fs =
                ({ success := true, item := { fsl.item with last_error := none }
                   error := none },
                 saveItem fsl { fsl.item with last_error := none }, i) := by
              simp only [runPhaseImplement, helig, Bool.false_eq_true, if_false, hload,
                hdone, ← hst, hloop, hmax, if_false]
            rw [hR]
            rw [hloop] at hb1
            simp only [implIteration] at hb1
            obtain ⟨hb4a, hb4b⟩ := hb4 prd' fsl i hloop
            refine ⟨by show i ≤ maxIterations; omega, ?_, ?_⟩
            · intro hdf hpend
              simp only [saveItem] at hpend
              rw [hb4a hstep] at hpend
              have hi := hb4b hpend
              exfalso
              apply hmax
              rw [hpend]
              simp
              omega
            · intro hagent hdf _ hpend
              subst hagent
              subst hdf
              obtain ⟨fs', hex, _⟩ := implementLoop_stubborn prd hpend maxIterations 0 st.2 hstep
              rw [hloop] at hex
              injection hex with he1 he2 he3
              exfalso
              apply hmax
              rw [he1, hpend, he3]
              simp

/-- C3 witness: with max_iterations = 2 and the stubborn agent, the run stays
within the bound and fails with the max-iterations error recorded. -/
theorem runPhaseImplement_bounded_witness :
    (runPhaseImplement stubbornAgent 2 false false implementingFs).2.2 ≤ 2 ∧
    (runPhaseImplement stubbornAgent 2 false false implementingFs).1.error =
      some ("Reached max iterations (" ++ toString 2 ++ ") with stories still pending") ∧
    (runPhaseImplement stubbornAgent 2 false false implementingFs).1.success = false := by
  obtain ⟨h1, _h2, h3⟩ :=
    runPhaseImplement_bounded_max_iterations stubbornAgent 2 false false implementingFs
  obtain ⟨h3a, h3b⟩ := h3 rfl rfl rfl (by decide)
  exact ⟨h1, h3a, h3b⟩

/-- A target that is not the single allowed next state is rejected. -/
theorem validateTransition_reject_nonnext (current target : WorkflowState)
    (ctx : ValidationContext)
    (h : (getAllowedNextStates current).contains target = false) :
    (validateTransition current target ctx).valid = false := by
  have h' : target ∉ getAllowedNextStates current := by simpa using h
  simp [validateTransition, h']

/-- A valid transition into planned can only start from researched. -/
theorem validateTransition_planned_valid_imp :
    ∀ (s : WorkflowState) (ctx : ValidationContext),
      (validateTransition s .planned ctx).valid = true → s = .researched := by
  intro s ctx h
  cases s with
  | researched => rfl
  | raw =>
      have hv := validateTransition_reject_nonnext .raw .planned ctx rfl
      rw [hv] at h; cases h
  | planned =>
      have hv := validateTransition_reject_nonnext .planned .planned ctx rfl
      rw [hv] at h; cases h
  | implementing =>
      have hv := validateTransition_reject_nonnext .implementing .planned ctx rfl
      rw [hv] at h; cases h
  | in_pr =>
      have hv := validateTransition_reject_nonnext .in_pr .planned ctx rfl
      rw [hv] at h; cases h
  | done =>
      have hv := validateTransition_reject_nonnext .done .planned ctx rfl
      rw [hv] at h; cases h

/-- Research-runner monotonicity: a successful run never lowers the persisted
state index (provided a forced run starts at or below researched) and never
advances it by more than one step. -/
theorem runPhaseResearch_monotone (agent : AgentBehavior) (force dryRun : Bool)
    (fs : ItemFs)
    (hforce : force = true → getStateIndex fs.item.state ≤ 1)
    (hsucc : (runPhaseResearch agent force dryRun fs).1.success = true) :
    getStateIndex fs.item.state ≤
        getStateIndex (runPhaseResearch agent force dryRun fs).2.item.state ∧
    getStateIndex (runPhaseResearch agent force dryRun fs).2.item.state ≤
        getStateIndex fs.item.state + 1 := by
  by_cases hskip : (!force && fs.art.hasResearchMd) = true
  · by_cases hraw : (fs.item.state == WorkflowState.raw) = true
    · have hstate : fs.item.state = .raw := by simpa using hraw
      simp only [runPhaseResearch, hskip, if_true, hraw, saveItem]
      rw [hstate]
      exact ⟨by decide, by decide⟩
    · simp only [runPhaseResearch, hskip, if_true, hraw, Bool.false_eq_true, if_false]
      exact ⟨Nat.le_refl _, Nat.le_succ _⟩
  · by_cases hineligible : (fs.item.state != WorkflowState.raw && !force) = true
    · simp only [runPhaseResearch, hskip, hineligible, Bool.false_eq_true, if_false,
        if_true] at hsucc
    · by_cases hdry : dryRun = true
      · simp only [runPhaseResearch, hskip, hineligible, hdry, Bool.false_eq_true,
          if_false, if_true]
        exact ⟨Nat.le_refl _, Nat.le_succ _⟩
      · rw [Bool.not_eq_true] at hdry
        subst hdry
        have hold : getStateIndex fs.item.state ≤ 1 := by
          cases hf : force with
          | true => exact hforce hf
          | false =>
              rw [hf] at hineligible
              simp only [Bool.and_true, Bool.not_true, Bool.not_eq_true] at hineligible
              have : fs.item.state = .raw := by
                rcases hb : (fs.item.state != WorkflowState.raw) with _ | _
                · simpa using hb
                · rw [hb] at hineligible; simp at hineligible
              rw [this]
              decide
        rcases hA : runAgentM agent false fs.art with ⟨res, art2⟩
        by_cases hrs : res.success = true
        · by_cases hart : art2.hasResearchMd = true
          · by_cases hval : (validateTransition
                (if force && fs.item.state != WorkflowState.raw then
                  { fs.item with state := .raw } else fs.item).state
                WorkflowState.researched
                (buildValidationContext art2
                  (if force && fs.item.state != WorkflowState.raw then
                    { fs.item with state := .raw } else fs.item))).valid = true
            · simp only [runPhaseResearch, hskip, hineligible, hA, hrs, hart, hval,
                Bool.false_eq_true, if_false, if_true, Bool.not_true, Bool.not_false,
                saveItem]
              constructor
              · exact le_trans hold (by decide)
              · exact Nat.succ_le_succ (Nat.zero_le _)
            · simp only [runPhaseResearch, hskip, hineligible, hA, hrs, hart, hval,
                Bool.false_eq_true, if_false, if_true, Bool.not_true, Bool.not_false] at hsucc
          · simp only [runPhaseResearch, hskip, hineligible, hA, hrs, hart,
              Bool.false_eq_true, if_false, if_true, Bool.not_true, Bool.not_false] at hsucc
        · simp only [runPhaseResearch, hskip, hineligible, hA, hrs,
            Bool.false_eq_true, if_false, if_true, Bool.not_false] at hsucc

/-- Plan-runner monotonicity: a successful run (forced or not) never lowers
the persisted state index and never advances it by more than one step. -/
theorem runPhasePlan_monotone (agent : AgentBehavior) (force dryRun : Bool)
    (fs : ItemFs)
    (hsucc : (runPhasePlan agent force dryRun fs).1.success = true) :
    getStateIndex fs.item.state ≤
        getStateIndex (runPhasePlan agent force dryRun fs).2.item.state ∧
    getStateIndex (runPhasePlan agent force dryRun fs).2.item.state ≤
        getStateIndex fs.item.state + 1 := by
  by_cases hskip : (!force && fs.art.hasPlanMd && hasPrdFile fs.art) = true
  · by_cases hres : (fs.item.state == WorkflowState.researched) = true
    · have hstate : fs.item.state = .researched := by simpa using hres
      rcases hprd : loadPrdSafe fs.art with _ | prd
      · simp only [runPhasePlan, hskip, if_true, hres, hprd]
        exact ⟨Nat.le_refl _, Nat.le_succ _⟩
      · simp only [runPhasePlan, hskip, if_true, hres, hprd, saveItem]
        rw [hstate]
        exact ⟨by decide, by decide⟩
    · simp only [runPhasePlan, hskip, if_true, hres, Bool.false_eq_true, if_false]
      exact ⟨Nat.le_refl _, Nat.le_succ _⟩
  · by_cases hineligible : (fs.item.state != WorkflowState.researched && !force) = true
    · simp only [runPhasePlan, hskip, hineligible, Bool.false_eq_true, if_false,
        if_true] at hsucc
    · by_cases hdry : dryRun = true
      · simp only [runPhasePlan, hskip, hineligible, hdry, Bool.false_eq_true,
          if_false, if_true]
        exact ⟨Nat.le_refl _, Nat.le_succ _⟩
      · rw [Bool.not_eq_true] at hdry
        subst hdry
        rcases hA : runAgentM agent false fs.art with ⟨res, art2⟩
        by_cases hrs : res.success = true
        · by_cases hplanmd : art2.hasPlanMd = true
          · by_cases hprdfile : hasPrdFile art2 = true
            · rcases hprd : loadPrdSafe art2 with _ | prd
              · simp only [runPhasePlan, hskip, hineligible, hA, hrs, hplanmd, hprdfile,
                  hprd, Bool.false_eq_true, if_false, if_true, Bool.not_true,
                  Bool.not_false] at hsucc
              · by_cases hval : (validateTransition fs.item.state WorkflowState.planned
                    (buildValidationContext art2 fs.item)).valid = true
                · have hstate := validateTransition_planned_valid_imp fs.item.state
                    (buildValidationContext art2 fs.item) hval
                  simp only [runPhasePlan, hskip, hineligible, hA, hrs, hplanmd,
                    hprdfile, hprd, hval, Bool.false_eq_true, if_false, if_true,
                    Bool.not_true, Bool.not_false, saveItem]
                  rw [hstate]
                  exact ⟨by decide, by decide⟩
                · simp only [runPhasePlan, hskip, hineligible, hA, hrs, hplanmd,
                    hprdfile, hprd, hval, Bool.false_eq_true, if_false, if_true,
                    Bool.not_true, Bool.not_false] at hsucc
            · simp only [runPhasePlan, hskip, hineligible, hA, hrs, hplanmd, hprdfile,
                Bool.false_eq_true, if_false, if_true, Bool.not_true,
                Bool.not_false] at hsucc
          · simp only [runPhasePlan, hskip, hineligible, hA, hrs, hplanmd,
              Bool.false_eq_true, if_false, if_true, Bool.not_true,
              Bool.not_false] at hsucc
        · simp only [runPhasePlan, hskip, hineligible, hA, hrs, Bool.false_eq_true,
            if_false, if_true, Bool.not_false] at hsucc

/-- Implement-runner monotonicity: a successful run (forced or not) either
leaves the persisted state unchanged or advances planned to implementing. -/
theorem runPhaseImplement_monotone (agent : AgentBehavior) (maxIterations : Nat)
    (force dryRun : Bool) (fs : ItemFs)
    (hsucc : (runPhaseImplement agent maxIterations force dryRun fs).1.success = true) :
    getStateIndex fs.item.state ≤
        getStateIndex (runPhaseImplement agent maxIterations force dryRun fs).2.1.item.state ∧
    getStateIndex (runPhaseImplement agent maxIterations force dryRun fs).2.1.item.state ≤
        getStateIndex fs.item.state + 1 := by
  by_cases helig :
      (fs.item.state != .planned && fs.item.state != .implementing && !force) = true
  · simp only [runPhaseImplement, helig, if_true] at hsucc
    cases hsucc
  · rcases hload : loadPrdSafe fs.art with _ | prd
    · simp only [runPhaseImplement, helig, Bool.false_eq_true, if_false, hload] at hsucc
    · by_cases hdone : allStoriesDone (some prd) = true
      · simp only [runPhaseImplement, helig, Bool.false_eq_true, if_false, hload,
          hdone, if_true]
        exact ⟨Nat.le_refl _, Nat.le_succ _⟩
      · set st := (if fs.item.state == WorkflowState.planned then
            ({ fs.item with state := WorkflowState.implementing },
              saveItem fs { fs.item with state := WorkflowState.implementing })
          else (fs.item, fs)) with hst
        have hstep : getStateIndex fs.item.state ≤ getStateIndex st.2.item.state ∧
            getStateIndex st.2.item.state ≤ getStateIndex fs.item.state + 1 := by
          rw [hst]
          by_cases hplan : (fs.item.state == WorkflowState.planned) = true
          · have hstate : fs.item.state = .planned := by simpa using hplan
            simp only [hplan, if_true, saveItem]
            rw [hstate]
            exact ⟨by decide, by decide⟩
          · simp only [hplan, Bool.false_eq_true, if_false]
            exact ⟨Nat.le_refl _, Nat.le_succ _⟩
        obtain ⟨_hb1, hb2, _hb3, _hb4⟩ :=
          implementLoop_spec agent dryRun maxIterations 0 prd st.2
        rcases hloop : implementLoop agent dryRun maxIterations 0 prd st.2 with
          ⟨fsl, i⟩ | ⟨fsl, err, i⟩ | ⟨prd', fsl, i⟩
        · rw [hloop] at hb2
          simp only [implFs] at hb2
          simp only [runPhaseImplement, helig, Bool.false_eq_true, if_false, hload,
            hdone, ← hst, hloop]
          rw [hb2]
          exact hstep
        · simp only [runPhaseImplement, helig, Bool.false_eq_true, if_false, hload,
            hdone, ← hst, hloop] at hsucc
        · rw [hloop] at hb2
          simp only [implFs] at hb2
          by_cases hmax :
              (decide (i ≥ maxIterations) && hasPendingStories (some prd')) = true
          · simp only [runPhaseImplement, helig, Bool.false_eq_true, if_false, hload,
              hdone, ← hst, hloop, hmax, if_true] at hsucc
          · have hb2s : fsl.item.state = st.2.item.state := by rw [hb2]
            simp only [runPhaseImplement, helig, Bool.false_eq_true, if_false, hload,
              hdone, ← hst, hloop, hmax, if_false]
            simp only [saveItem]
            rw [hb2s]
            exact hstep

/-- Delivery-runner shape: any successful (non-thrown) run started from
implementing and persisted in_pr. -/
theorem runPhasePr_shape :
    ∀ (baseBranch branchPfx : String) (dryRun : Bool) (fs : ItemFs) (g : GitState)
      (r : RunnerResult) (fs' : ItemFs) (g' : GitState),
      runPhasePr baseBranch branchPfx dryRun fs g = Except.ok (r, fs', g') →
      r.success = true →
      fs.item.state = .implementing ∧ fs'.item.state = .in_pr := by
  intro baseBranch branchPfx dryRun fs g r fs' g' hrun hsucc
  by_cases hstate : (fs.item.state != WorkflowState.implementing) = true
  · simp only [runPhasePr, hstate, if_true] at hrun
    injection hrun with h
    injection h with h1 h23
    subst h1
    simp at hsucc
  · have hstate' : fs.item.state = .implementing := by
      rcases hb : (fs.item.state != WorkflowState.implementing) with _ | _
      · simpa using hb
      · rw [hb] at hstate
        simp at hstate
    by_cases hstories : (!allStoriesDone (loadPrdSafe fs.art)) = true
    · simp only [runPhasePr, hstate, hstories, Bool.false_eq_true, if_false,
        if_true] at hrun
      injection hrun with h
      injection h with h1 h23
      subst h1
      simp at hsucc
    · simp only [runPhasePr, hstate, hstories, Bool.false_eq_true, if_false] at hrun
      split at hrun
      · cases hrun
      · injection hrun with h
        injection h with h1 h23
        injection h23 with h2 h3
        subst h2
        exact ⟨hstate', rfl⟩

/-- Complete-runner shape: a successful run leaves the persisted state
unchanged (dry-run) or moves in_pr to done. -/
theorem runPhaseComplete_shape :
    ∀ (dryRun : Bool) (fs : ItemFs) (g : GitState),
      (runPhaseComplete dryRun fs g).1.success = true →
      (runPhaseComplete dryRun fs g).2.1.item.state = fs.item.state ∨
      (fs.item.state = .in_pr ∧ (runPhaseComplete dryRun fs g).2.1.item.state = .done) := by
  intro dryRun fs g hsucc
  by_cases hstate : (fs.item.state != WorkflowState.in_pr) = true
  · simp only [runPhaseComplete, hstate, if_true] at hsucc
    cases hsucc
  · have hstate' : fs.item.state = .in_pr := by
      rcases hb : (fs.item.state != WorkflowState.in_pr) with _ | _
      · simpa using hb
      · rw [hb] at hstate
        simp at hstate
    by_cases hdry : dryRun = true
    · subst hdry
      have hval : runPhaseComplete true fs g =
          ({ success := true, item := fs.item, error := none }, fs, g) := by
        simp only [runPhaseComplete, hstate, Bool.false_eq_true, if_false, if_true]
      rw [hval]
      exact Or.inl rfl
    · rw [Bool.not_eq_true] at hdry
      subst hdry
      rcases hn : fs.item.pr_number with _ | n
      · have hval : runPhaseComplete false fs g =
            ({ success := false, item := fs.item, error := some "Item has no PR number" },
             fs, g) := by
          simp only [runPhaseComplete, hstate, hn, Bool.false_eq_true, if_false]
        rw [hval] at hsucc
        cases hsucc
      · by_cases hm : (isPrMerged n false g).1 = true
        · have hval : runPhaseComplete false fs g =
              ({ success := true, item := { fs.item with state := .done, last_error := none }
                 error := none },
               saveItem fs { fs.item with state := .done, last_error := none },
               (isPrMerged n false g).2) := by
            simp only [runPhaseComplete, hstate, hn, hm, Bool.false_eq_true, if_false,
              Bool.not_true]
          rw [hval]
          exact Or.inr ⟨hstate', rfl⟩
        · have hval : runPhaseComplete false fs g =
              ({ success := false, item := fs.item, error := some "PR not merged yet" },
               fs, (isPrMerged n false g).2) := by
            rcases hb : (isPrMerged n false g).1 with _ | _
            · simp only [runPhaseComplete, hstate, hn, hb, Bool.false_eq_true, if_false,
                Bool.not_false, if_true]
            · rw [hb] at hm
              simp at hm
          rw [hval] at hsucc
          cases hsucc

/-- C1 (amended) -- for every phase runner, oracle behaviour and option
combination, a successful invocation never moves the persisted state to a
lower index and never advances it by more than one step — except that the
research runner under force must start at or below researched (its force path
resets to raw and re-runs, which regresses any later state to researched). -/
theorem runPhase_state_index_monotone :
    ∀ (p : Phase) (env : RunEnv) (force dryRun : Bool) (fs : ItemFs) (g : GitState)
      (r : RunnerResult) (fs' : ItemFs) (g' : GitState),
      (p = .research → force = true → getStateIndex fs.item.state ≤ 1) →
      runPhase p env force dryRun fs g = Except.ok (r, fs', g') →
      r.success = true →
      getStateIndex fs.item.state ≤ getStateIndex fs'.item.state ∧
      getStateIndex fs'.item.state ≤ getStateIndex fs.item.state + 1 := by
  intro p env force dryRun fs g r fs' g' hforce hrun hsucc
  cases p with
  | research =>
      simp only [runPhase] at hrun
      injection hrun with h
      injection h with h1 h23
      injection h23 with h2 h3
      subst h1
      subst h2
      exact runPhaseResearch_monotone env.agent force dryRun fs (hforce rfl) hsucc
  | plan =>
      simp only [runPhase] at hrun
      injection hrun with h
      injection h with h1 h23
      injection h23 with h2 h3
      subst h1
      subst h2
      exact runPhasePlan_monotone env.agent force dryRun fs hsucc
  | implement =>
      simp only [runPhase] at hrun
      injection hrun with h
      injection h with h1 h23
      injection h23 with h2 h3
      subst h1
      subst h2
      exact runPhaseImplement_monotone env.agent env.maxIterations force dryRun fs hsucc
  | pr =>
      simp only [runPhase] at hrun
      obtain ⟨hs1, hs2⟩ :=
        runPhasePr_shape env.baseBranch env.branchPfx dryRun fs g r fs' g' hrun hsucc
      rw [hs1, hs2]
      exact ⟨by decide, by decide⟩
  | complete =>
      simp only [runPhase] at hrun
      injection hrun with h
      have hr : (runPhaseComplete dryRun fs g).1 = r := by rw [h]
      have hfs' : (runPhaseComplete dryRun fs g).2.1 = fs' := by rw [h]
      rw [← hr] at hsucc
      rcases runPhaseComplete_shape dryRun fs g hsucc with heq | ⟨hst, hdone⟩
      · rw [← hfs', heq]
        exact ⟨Nat.le_refl _, Nat.le_succ _⟩
      · rw [← hfs', hdone, hst]
        exact ⟨by decide, by decide⟩

/-- C1 counterexample -- the research runner invoked with force = true on a
planned item succeeds and persists state researched: the persisted state index
decreases (2 to 1) through a successful runner execution that is not a
diagnostics repair, refuting the claim as stated (which quantifies over
force = true as well). -/
theorem runPhaseResearch_force_regresses_counterexample :
    (runPhaseResearch researchWritingAgent true false plannedNoResearchFs).1.success = true ∧
    plannedNoResearchFs.item.state = .planned ∧
    (runPhaseResearch researchWritingAgent true false plannedNoResearchFs).2.item.state =
      .researched ∧
    getStateIndex
        (runPhaseResearch researchWritingAgent true false plannedNoResearchFs).2.item.state <
      getStateIndex plannedNoResearchFs.item.state := by
  exact ⟨rfl, rfl, rfl, by decide⟩

/-- C1 witness: the amended monotonicity theorem applied to a concrete
successful dry-run of the complete phase. -/
theorem runPhase_state_index_monotone_witness :
    getStateIndex inPrItemFs.item.state ≤ getStateIndex inPrItemFs.item.state ∧
    getStateIndex inPrItemFs.item.state ≤ getStateIndex inPrItemFs.item.state + 1 :=
  runPhase_state_index_monotone .complete
    { agent := inertAgent, maxIterations := 2, baseBranch := "main", branchPfx := "wreckit/" }
    false true inPrItemFs deliveryGit
    { success := true, item := inPrItemFs.item, error := none }
    inPrItemFs deliveryGit
    (fun hcon => absurd hcon (by decide)) rfl rfl

/-- C2 -- delivery on an implementing item with all stories done and a dirty
working tree, with no assumption about existing branches or PRs: the only
status inspection and the commit of all changes happen before the push and
before any PR operation (there is no clean-tree precondition that can fail —
the only possible failure after the commit is the PR create/retrieve throw);
whenever the run returns, it succeeded, creating or updating the PR, and the
persisted item carries state in_pr, the branch name, the PR reference and a
cleared last_error. -/
theorem runPhasePr_commits_dirty_tree_before_push_and_pr :
    ∀ (baseBranch branchPfx : String) (fs : ItemFs) (g : GitState),
      fs.item.state = .implementing →
      allStoriesDone (loadPrdSafe fs.art) = true →
      g.dirty = true →
      match runPhasePr baseBranch branchPfx false fs g with
      | Except.ok (r, fs', g₁) =>
          r.success = true ∧ fs'.item.state = .in_pr ∧
          fs'.item.branch = some (branchPfx ++ replaceFirstSlash fs.item.id) ∧
          fs'.item.pr_url.isSome = true ∧ fs'.item.pr_number.isSome = true ∧
          fs'.item.last_error = none ∧
          ∃ branchEvents prEvents,
            g₁.events = g.events ++ branchEvents ++
              [VcsEvent.statusCheck,
               VcsEvent.commitAll ("feat(" ++ replaceFirstSlash fs.item.id ++
                 "): implement " ++ fs.item.title),
               VcsEvent.push (branchPfx ++ replaceFirstSlash fs.item.id)] ++ prEvents ∧
            (branchEvents = [VcsEvent.checkout (branchPfx ++ replaceFirstSlash fs.item.id)] ∨
             branchEvents = [VcsEvent.checkout baseBranch,
               VcsEvent.checkoutNew (branchPfx ++ replaceFirstSlash fs.item.id)]) ∧
            ((∃ n, prEvents = [VcsEvent.prView (branchPfx ++ replaceFirstSlash fs.item.id),
                VcsEvent.prEdit n]) ∨
             prEvents = [VcsEvent.prView (branchPfx ++ replaceFirstSlash fs.item.id),
               VcsEvent.prCreate baseBranch (branchPfx ++ replaceFirstSlash fs.item.id),
               VcsEvent.prView (branchPfx ++ replaceFirstSlash fs.item.id)])
      | Except.error _ =>
          prLookup g.prs (branchPfx ++ replaceFirstSlash fs.item.id) = none ∧
          (g.createPrExit ≠ 0 ∨ g.createRetrieveFails = true) := by
  intro baseBranch branchPfx fs g hstate hstories hdirty
  by_cases hb : (branchPfx ++ replaceFirstSlash fs.item.id) ∈ g.localBranches
  · rcases hl : prLookup g.prs (branchPfx ++ replaceFirstSlash fs.item.id) with _ | pr
    · by_cases he : g.createPrExit = 0
      · cases hrf : g.createRetrieveFails with
        | false =>
            have hlook := prLookup_append_singleton (l := g.prs)
              (k := branchPfx ++ replaceFirstSlash fs.item.id) hl
            simp [runPhasePr, hstate, ensureBranch, hasUncommittedChanges, commitAll,
              pushBranch, createOrUpdatePr, getPrByBranch, saveItem, hb, hdirty,
              hstories, hl, he, hrf, hlook]
            exact ⟨[VcsEvent.checkout (branchPfx ++ replaceFirstSlash fs.item.id)],
              [VcsEvent.prView (branchPfx ++ replaceFirstSlash fs.item.id),
               VcsEvent.prCreate baseBranch (branchPfx ++ replaceFirstSlash fs.item.id),
               VcsEvent.prView (branchPfx ++ replaceFirstSlash fs.item.id)],
              rfl, Or.inl rfl, Or.inr rfl⟩
        | true =>
            simp [runPhasePr, hstate, ensureBranch, hasUncommittedChanges, commitAll,
              pushBranch, createOrUpdatePr, getPrByBranch, saveItem, hb, hdirty,
              hstories, hl, he, hrf]
      · simp [runPhasePr, hstate, ensureBranch, hasUncommittedChanges, commitAll,
          pushBranch, createOrUpdatePr, getPrByBranch, saveItem, hb, hdirty,
          hstories, hl, he]
    · simp [runPhasePr, hstate, ensureBranch, hasUncommittedChanges, commitAll,
        pushBranch, createOrUpdatePr, getPrByBranch, saveItem, hb, hdirty,
        hstories, hl]
      exact ⟨[VcsEvent.checkout (branchPfx ++ replaceFirstSlash fs.item.id)],
        [VcsEvent.prView (branchPfx ++ replaceFirstSlash fs.item.id),
         VcsEvent.prEdit pr.number],
        rfl, Or.inl rfl, Or.inl ⟨pr.number, rfl⟩⟩
  · rcases hl : prLookup g.prs (branchPfx ++ replaceFirstSlash fs.item.id) with _ | pr
    · by_cases he : g.createPrExit = 0
      · cases hrf : g.createRetrieveFails with
        | false =>
            have hlook := prLookup_append_singleton (l := g.prs)
              (k := branchPfx ++ replaceFirstSlash fs.item.id) hl
            simp [runPhasePr, hstate, ensureBranch, hasUncommittedChanges, commitAll,
              pushBranch, createOrUpdatePr, getPrByBranch, saveItem, hb, hdirty,
              hstories, hl, he, hrf, hlook]
            exact ⟨[VcsEvent.checkout baseBranch,
               VcsEvent.checkoutNew (branchPfx ++ replaceFirstSlash fs.item.id)],
              [VcsEvent.prView (branchPfx ++ replaceFirstSlash fs.item.id),
               VcsEvent.prCreate baseBranch (branchPfx ++ replaceFirstSlash fs.item.id),
               VcsEvent.prView (branchPfx ++ replaceFirstSlash fs.item.id)],
              rfl, Or.inr rfl, Or.inr rfl⟩
        | true =>
            simp [runPhasePr, hstate, ensureBranch, hasUncommittedChanges, commitAll,
              pushBranch, createOrUpdatePr, getPrByBranch, saveItem, hb, hdirty,
              hstories, hl, he, hrf]
      · simp [runPhasePr, hstate, ensureBranch, hasUncommittedChanges, commitAll,
          pushBranch, createOrUpdatePr, getPrByBranch, saveItem, hb, hdirty,
          hstories, hl, he]
    · simp [runPhasePr, hstate, ensureBranch, hasUncommittedChanges, commitAll,
        pushBranch, createOrUpdatePr, getPrByBranch, saveItem, hb, hdirty,
        hstories, hl]
      exact ⟨[VcsEvent.checkout baseBranch,
         VcsEvent.checkoutNew (branchPfx ++ replaceFirstSlash fs.item.id)],
        [VcsEvent.prView (branchPfx ++ replaceFirstSlash fs.item.id),
         VcsEvent.prEdit pr.number],
        rfl, Or.inr rfl, Or.inl ⟨pr.number, rfl⟩⟩

/-- A git world with a dirty tree, no work branch yet and no open PR: the
first dirty delivery run, which must create the PR. -/
def firstDeliveryGit : GitState :=
  { localBranches := ["main"]
    currentBranch := "main"
    dirty := true
    prs := []
    createPrExit := 0
    createPrStdout := ""
    createRetrieveFails := false
    nextPrUrl := "https://github.com/x/y/pull/9"
    nextPrNumber := 9
    mergedPrs := []
    events := [] }

/-- C2 witness: the theorem applied to the first dirty delivery run (no
branch, no PR yet) of the concrete delivery item. -/
theorem runPhasePr_commits_dirty_tree_witness :
    match runPhasePr "main" "wreckit/" false deliveryFs firstDeliveryGit with
    | Except.ok (r, fs', g₁) =>
        r.success = true ∧ fs'.item.state = .in_pr ∧
        fs'.item.branch = some ("wreckit/" ++ replaceFirstSlash deliveryFs.item.id) ∧
        fs'.item.pr_url.isSome = true ∧ fs'.item.pr_number.isSome = true ∧
        fs'.item.last_error = none ∧
        ∃ branchEvents prEvents,
          g₁.events = firstDeliveryGit.events ++ branchEvents ++
            [VcsEvent.statusCheck,
             VcsEvent.commitAll ("feat(" ++ replaceFirstSlash deliveryFs.item.id ++
               "): implement " ++ deliveryFs.item.title),
             VcsEvent.push ("wreckit/" ++ replaceFirstSlash deliveryFs.item.id)] ++ prEvents ∧
          (branchEvents = [VcsEvent.checkout ("wreckit/" ++ replaceFirstSlash deliveryFs.item.id)] ∨
           branchEvents = [VcsEvent.checkout "main",
             VcsEvent.checkoutNew ("wreckit/" ++ replaceFirstSlash deliveryFs.item.id)]) ∧
          ((∃ n, prEvents = [VcsEvent.prView ("wreckit/" ++ replaceFirstSlash deliveryFs.item.id),
              VcsEvent.prEdit n]) ∨
           prEvents = [VcsEvent.prView ("wreckit/" ++ replaceFirstSlash deliveryFs.item.id),
             VcsEvent.prCreate "main" ("wreckit/" ++ replaceFirstSlash deliveryFs.item.id),
             VcsEvent.prView ("wreckit/" ++ replaceFirstSlash deliveryFs.item.id)])
    | Except.error _ =>
        prLookup firstDeliveryGit.prs ("wreckit/" ++ replaceFirstSlash deliveryFs.item.id) = none ∧
        (firstDeliveryGit.createPrExit ≠ 0 ∨ firstDeliveryGit.createRetrieveFails = true) :=
  runPhasePr_commits_dirty_tree_before_push_and_pr "main" "wreckit/" deliveryFs
    firstDeliveryGit rfl (by decide) rfl
